import Mathlib

/-!
Verification of the OSRSTracker normalization core against its specification.

The Python source (backend/player_info.py, backend/item_prices.py,
backend/item_trends_graphs.py) is shallowly embedded below: pure functions
become Lean functions over `List Char` / `String`, Python exceptions become
`Except Unit`, Python `dict`s become insertion-ordered association lists, and
Python numbers become `Int` / `ℚ`.  Library primitives of Python (int(), float(),
str.strip, str.split, str.title, "%.2f" formatting, datetime date derivation)
are modelled by executable Lean definitions that follow their documented
behaviour on the ASCII inputs this program feeds them (exotic forms such as
underscore digit separators, exponent literals, inf/nan and non-ASCII case
folding are outside the inputs exercised here and are noted at each model).
-/

deriving instance DecidableEq for Except

/-! ## Character-level models of the Python string primitives -/

/-- Decimal digit test (ASCII `'0'`..`'9'`), as used by the int()/float() scanners. -/
def isDigitB (c : Char) : Bool :=
  decide (48 ≤ c.toNat) && decide (c.toNat ≤ 57)

/-- Numeric value of a decimal digit character. -/
def digitVal (c : Char) : Nat := c.toNat - 48

/-- Whitespace stripped by Python str.strip (ASCII forms). -/
def isPySpace (c : Char) : Bool :=
  c = ' ' || c = '\t' || c = '\n' || c = '\r' || c = Char.ofNat 11 || c = Char.ofNat 12

/-- Model of Python str.strip(): drop leading and trailing whitespace. -/
def pyStrip (cs : List Char) : List Char :=
  ((cs.dropWhile isPySpace).reverse.dropWhile isPySpace).reverse

/-- Model of Python str.split(sep) for a one-character separator: split at every
occurrence, keeping empty pieces (so the empty string yields one empty piece). -/
def splitChars (sep : Char) : List Char → List (List Char)
  | [] => [[]]
  | c :: cs =>
    match splitChars sep cs with
    | [] => [[c]]
    | g :: gs => if c = sep then [] :: g :: gs else (c :: g) :: gs

/-- Value of a big-endian digit string. -/
def digitsToNat (ds : List Char) : Nat :=
  ds.foldl (fun a c => 10 * a + digitVal c) 0

/-- Model of Python int(str): strip whitespace, optional sign, then a nonempty
run of decimal digits (underscore separators are not modelled; the feeds here
never contain them).  `none` models the ValueError raise. -/
def pyInt (s : String) : Option Int :=
  let cs := pyStrip s.data
  let (neg, ds) :=
    if cs.head? = some '-' then (true, cs.tail)
    else if cs.head? = some '+' then (false, cs.tail)
    else (false, cs)
  if ds.isEmpty then none
  else if ds.all isDigitB then
    some (if neg then -(digitsToNat ds : Int) else (digitsToNat ds : Int))
  else none

/-- Scan a maximal run of decimal digits, threading an accumulated value and a
count of digits consumed; returns the value, the count and the rest. -/
def takeDigitsAux : List Char → Nat → Nat → Nat × Nat × List Char
  | [], acc, k => (acc, k, [])
  | c :: cs, acc, k =>
    if isDigitB c then takeDigitsAux cs (10 * acc + digitVal c) (k + 1)
    else (acc, k, c :: cs)

/-- Optional leading sign of a numeric literal: (negative?, rest). -/
def splitSign (cs : List Char) : Bool × List Char :=
  if cs.head? = some '-' then (true, cs.tail)
  else if cs.head? = some '+' then (false, cs.tail)
  else (false, cs)

/-- Model of Python float(str) on plain decimal literals: optional sign, digits
with at most one point, at least one digit overall.  Exponent forms, inf/nan and
underscore separators are not modelled (never produced by this program).
`none` models the ValueError raise; the value is kept exact as a rational. -/
def pyFloat (cs : List Char) : Option ℚ :=
  let p := splitSign cs
  let ipRun := takeDigitsAux p.2 0 0
  let signed : ℚ → ℚ := fun q => if p.1 then -q else q
  match ipRun.2.2 with
  | [] => if ipRun.2.1 = 0 then none else some (signed ipRun.1)
  | '.' :: r =>
    let fpRun := takeDigitsAux r 0 0
    if ipRun.2.1 = 0 && fpRun.2.1 = 0 then none
    else if fpRun.2.2.isEmpty then
      some (signed ((ipRun.1 : ℚ) + (fpRun.1 : ℚ) / 10 ^ fpRun.2.1))
    else none
  | _ => none

/-- ASCII letter test (the taxonomy names are ASCII). -/
def isAlphaB (c : Char) : Bool :=
  (decide (65 ≤ c.toNat) && decide (c.toNat ≤ 90)) ||
    (decide (97 ≤ c.toNat) && decide (c.toNat ≤ 122))

/-- ASCII lower-casing, as Python str.lower() acts on the ASCII inputs here. -/
def lowerChar (c : Char) : Char :=
  if decide (65 ≤ c.toNat) && decide (c.toNat ≤ 90) then Char.ofNat (c.toNat + 32) else c

/-- ASCII upper-casing. -/
def upperChar (c : Char) : Char :=
  if decide (97 ≤ c.toNat) && decide (c.toNat ≤ 122) then Char.ofNat (c.toNat - 32) else c

/-- Model of Python str.title() on ASCII text: upper-case each letter that does
not follow a letter, lower-case the others. -/
def pyTitleAux : List Char → Bool → List Char
  | [], _ => []
  | c :: cs, prev =>
    (if isAlphaB c then (if prev then lowerChar c else upperChar c) else c) ::
      pyTitleAux cs (isAlphaB c)

/-- Python `name.replace('_', ' ').title()` used for the display names. -/
def displayName (name : String) : String :=
  ⟨pyTitleAux (name.data.map (fun c => if c = '_' then ' ' else c)) false⟩

/-! ## Hiscore record decoder (backend/player_info.py, parse_hiscores_data) -/

structure SkillRecord where
  skill_name : String
  rank : Int
  level : Int
  xp : Int
deriving DecidableEq

structure ActivityRecord where
  activity_name : String
  rank : Int
  score : Int
deriving DecidableEq

structure BossRecord where
  boss_name : String
  rank : Int
  kills : Int
deriving DecidableEq

/-- Result dictionary of parse_hiscores_data: the three inner dicts are modelled
as insertion-ordered association lists keyed by the taxonomy id. -/
structure ParsedPlayerData where
  skills : List (String × SkillRecord)
  activities : List (String × ActivityRecord)
  bosses : List (String × BossRecord)
deriving DecidableEq

/-- Skill names in order as returned by the API (24 entries, verbatim). -/
def skillsOrder : List String :=
  ["overall", "attack", "defence", "strength", "hitpoints",
   "ranged", "prayer", "magic", "cooking", "woodcutting",
   "fletching", "fishing", "firemaking", "crafting", "smithing",
   "mining", "herblore", "agility", "thieving", "slayer",
   "farming", "runecrafting", "hunter", "construction"]

/-- Activities/minigames in order (17 entries, verbatim). -/
def activitiesOrder : List String :=
  ["league_points", "bounty_hunter_hunter", "bounty_hunter_rogue",
   "bounty_hunter_hunter_legacy", "bounty_hunter_rogue_legacy",
   "clue_scrolls_all", "clue_scrolls_beginner", "clue_scrolls_easy",
   "clue_scrolls_medium", "clue_scrolls_hard", "clue_scrolls_elite",
   "clue_scrolls_master", "lms_rank", "pvp_arena_rank", "soul_wars_zeal",
   "rifts_closed", "colosseum_glory"]

/-- Boss names in order (58 entries, verbatim — the spec miscounts these as 57). -/
def bossesOrder : List String :=
  ["abyssal_sire", "alchemical_hydra", "artio", "barrows_chests",
   "bryophyta", "callisto", "calvarion", "cerberus", "chambers_of_xeric",
   "chambers_of_xeric_challenge_mode", "chaos_elemental", "chaos_fanatic",
   "commander_zilyana", "corporeal_beast", "crazy_archaeologist",
   "dagannoth_prime", "dagannoth_rex", "dagannoth_supreme",
   "deranged_archaeologist", "duke_sucellus", "general_graardor",
   "giant_mole", "grotesque_guardians", "hespori", "kalphite_queen",
   "king_black_dragon", "kraken", "kreearra", "kril_tsutsaroth",
   "mimic", "nex", "nightmare", "phosanis_nightmare", "obor",
   "phantom_muspah", "sarachnis", "scorpia", "skotizo", "spindel",
   "tempoross", "the_gauntlet", "the_corrupted_gauntlet", "the_leviathan",
   "the_whisperer", "theatre_of_blood", "theatre_of_blood_hard_mode",
   "thermonuclear_smoke_devil", "tombs_of_amascut", "tombs_of_amascut_expert",
   "tzkal_zuk", "tztok_jad", "vardorvis", "venenatis", "vetion",
   "vorkath", "wintertodt", "zalcano", "zulrah"]

/-- Comma fields of one feed line: `line.split(',')`. -/
def fields (line : String) : List String :=
  (splitChars ',' line.data).map (fun l => ⟨l⟩)

/-- One field: `int(s) if s != '-1' else dflt`.  The error is the ValueError
raised by int() on a malformed field. -/
def parseField (s : String) (dflt : Int) : Except Unit Int :=
  if s = "-1" then .ok dflt
  else
    match pyInt s with
    | some n => .ok n
    | none => .error ()

/-- One skill line: three fields (rank, level, xp); a line with fewer than
3 comma fields yields no record (the record is skipped, the line consumed). -/
def parseSkillLine (skill line : String) : Except Unit (Option (String × SkillRecord)) :=
  let parts := fields line
  if parts.length ≥ 3 then do
    let rank ← parseField (parts.getD 0 ("")) (-1)
    let level ← parseField (parts.getD 1 ("")) 1
    let xp ← parseField (parts.getD 2 ("")) 0
    .ok (some (skill, { skill_name := displayName skill, rank := rank, level := level, xp := xp }))
  else .ok none

/-- One activity line: two fields (rank, score). -/
def parseActivityLine (activity line : String) : Except Unit (Option (String × ActivityRecord)) :=
  let parts := fields line
  if parts.length ≥ 2 then do
    let rank ← parseField (parts.getD 0 ("")) (-1)
    let score ← parseField (parts.getD 1 ("")) 0
    .ok (some (activity, { activity_name := displayName activity, rank := rank, score := score }))
  else .ok none

/-- One boss line: two fields (rank, kills). -/
def parseBossLine (boss line : String) : Except Unit (Option (String × BossRecord)) :=
  let parts := fields line
  if parts.length ≥ 2 then do
    let rank ← parseField (parts.getD 0 ("")) (-1)
    let kills ← parseField (parts.getD 1 ("")) 0
    .ok (some (boss, { boss_name := displayName boss, rank := rank, kills := kills }))
  else .ok none

/-- Cursor-driven section loop: one taxonomy name consumes one line while lines
remain; once the cursor is past the end the remaining names are skipped (this is
the `if line_index < len(lines)` guard).  Returns the records and the lines left
for the next section. -/
def parseSection {ρ : Type} (parseLine : String → String → Except Unit (Option (String × ρ))) :
    List String → List String → Except Unit (List (String × ρ) × List String)
  | [], lines => .ok ([], lines)
  | _ :: names, [] => do
    let r ← parseSection parseLine names []
    .ok r
  | name :: names, line :: lines => do
    let rec? ← parseLine name line
    let r ← parseSection parseLine names lines
    match rec? with
    | some rec => .ok (rec :: r.1, r.2)
    | none => .ok (r.1, r.2)

/-- The line list of a feed: `data.strip().split('\n')`. -/
def hiscoreLines (data : String) : List String :=
  (splitChars '\n' (pyStrip data.data)).map (fun l => ⟨l⟩)

/-- Embedding of parse_hiscores_data (backend/player_info.py lines 10-107):
skills from the first lines, then activities, then bosses, one line per
taxonomy entry; the error is the uncaught ValueError from int() on a malformed
consumed field. -/
def parse_hiscores_data (data : String) : Except Unit ParsedPlayerData := do
  let s ← parseSection parseSkillLine skillsOrder (hiscoreLines data)
  let a ← parseSection parseActivityLine activitiesOrder s.2
  let b ← parseSection parseBossLine bossesOrder a.2
  .ok { skills := s.1, activities := a.1, bosses := b.1 }

/-- Success condition of parseField: the field is the sentinel or int() accepts it. -/
def fieldOk (s : String) : Bool :=
  decide (s = ("-1")) || (pyInt s).isSome

/-- A skill line decodes to a record: at least 3 comma fields, each consumed
field sentinel or integer. -/
def skillLineOk (l : String) : Bool :=
  decide ((fields l).length ≥ 3) && fieldOk ((fields l).getD 0 ("")) &&
    fieldOk ((fields l).getD 1 ("")) && fieldOk ((fields l).getD 2 (""))

/-- An activity or boss line decodes to a record: at least 2 comma fields,
each consumed field sentinel or integer. -/
def shortLineOk (l : String) : Bool :=
  decide ((fields l).length ≥ 2) && fieldOk ((fields l).getD 0 ("")) &&
    fieldOk ((fields l).getD 1 (""))

/-! ## Numeric formatter (backend/item_trends_graphs.py, format_price) -/

/-- Decimal digit character for a value below 10 (clamped at 9). -/
def digitChar (d : Nat) : Char :=
  match d with
  | 0 => '0' | 1 => '1' | 2 => '2' | 3 => '3' | 4 => '4'
  | 5 => '5' | 6 => '6' | 7 => '7' | 8 => '8' | _ => '9'

/-- Big-endian decimal rendering of a natural, with fuel for structural
recursion (renderNat supplies enough fuel for any value). -/
def renderNatAux : Nat → Nat → List Char
  | 0, _ => []
  | fuel + 1, n =>
    if n < 10 then [digitChar n] else renderNatAux fuel (n / 10) ++ [digitChar (n % 10)]

/-- Decimal rendering of a natural number. -/
def renderNat (n : Nat) : List Char := renderNatAux (n + 1) n

/-- Model of Python f-string "%.2f" formatting on an exact rational: round to
the nearest hundredth and render with exactly two decimals.  The source formats
a binary double, whose ties resolve by the double's exact binary value; this
model rounds half up, which stays within the half-hundredth tolerance the
round-trip claim allows. -/
def fmtFixed2 (q : ℚ) : List Char :=
  let n : Int := round (q * 100)
  let mag := n.natAbs
  let body := renderNat (mag / 100) ++ '.' :: [digitChar (mag / 10 % 10), digitChar (mag % 10)]
  if n < 0 then '-' :: body else body

/-- Comma grouping of a reversed digit string, three digits at a time. -/
def groupRevAux : Nat → List Char → List Char
  | 0, ds => ds
  | fuel + 1, ds =>
    if ds.length ≤ 3 then ds else ds.take 3 ++ ',' :: groupRevAux fuel (ds.drop 3)

/-- Model of Python f-string thousands grouping of an integer. -/
def pyCommaGroup (p : Int) : List Char :=
  let ds := renderNat p.natAbs
  (if p < 0 then ['-'] else []) ++ (groupRevAux ds.length ds.reverse).reverse

/-- Embedding of format_price (backend/item_trends_graphs.py lines 29-40):
None renders as "N/A"; otherwise b/m/k suffix by magnitude with two decimals,
and grouped thousands below 1000. -/
def format_price (price : Option Int) : String :=
  match price with
  | none => "N/A"
  | some p =>
    if p ≥ 1000000000 then ⟨fmtFixed2 ((p : ℚ) / 1000000000) ++ ['b']⟩
    else if p ≥ 1000000 then ⟨fmtFixed2 ((p : ℚ) / 1000000) ++ ['m']⟩
    else if p ≥ 1000 then ⟨fmtFixed2 ((p : ℚ) / 1000) ++ ['k']⟩
    else ⟨pyCommaGroup p⟩

/-! ## Lenient magnitude parser (backend/item_prices.py, parse_price) -/

/-- Suffix multiplier table of parse_price. -/
def priceMultiplier (c : Char) : ℚ :=
  if c = 'k' then 1000 else if c = 'm' then 1000000 else 1000000000

/-- Membership in the multiplier table. -/
def isMultiplier (c : Char) : Bool :=
  c = 'k' || c = 'm' || c = 'b'

/-- Embedding of parse_price (backend/item_prices.py lines 168-187).  Empty
input returns 0; commas and spaces are removed and the text lower-cased; a
trailing k/m/b multiplies the prefix parsed by float() with NO exception
protection (that call sits outside the try block, so an unparseable prefix is
an uncaught ValueError, modelled as the error case — likewise the IndexError
when the cleaned text is empty); only the suffix-free float() call is guarded,
returning 0 on ValueError. -/
def cleanPrice (s : String) : List Char :=
  ((s.data.filter (fun c => c ≠ ',')).filter (fun c => c ≠ ' ')).map lowerChar

def parse_price (s : String) : Except Unit ℚ :=
  if s.data.isEmpty then .ok 0
  else
    match (cleanPrice s).getLast? with
    | none => .error ()
    | some c =>
      if isMultiplier c then
        match pyFloat (cleanPrice s).dropLast with
        | some q => .ok (q * priceMultiplier c)
        | none => .error ()
      else
        match pyFloat (cleanPrice s) with
        | some q => .ok q
        | none => .ok 0

/-! ## Price history parser (backend/item_prices.py, parse_price_history) -/

/-- Proleptic Gregorian civil date (year, month, day) from a day count since
the Unix epoch (days algorithm over the 400-year era). -/
def civilFromDays (z0 : Int) : Int × Int × Int :=
  let z := z0 + 719468
  let era : Int := (if z ≥ 0 then z else z - 146096) / 146097
  let doe : Int := z - era * 146097
  let yoe : Int := (doe - doe / 1460 + doe / 36524 - doe / 146096) / 365
  let y : Int := yoe + era * 400
  let doy : Int := doe - (365 * yoe + yoe / 4 - yoe / 100)
  let mp : Int := (5 * doy + 2) / 153
  let d : Int := doy - (153 * mp + 2) / 5 + 1
  let m : Int := mp + (if mp < 10 then 3 else -9)
  (y + (if m ≤ 2 then 1 else 0), m, d)

/-- Zero-padded two-digit rendering of a month or day. -/
def pad2Int (n : Int) : List Char :=
  if n < 10 then '0' :: renderNat n.natAbs else renderNat n.natAbs

/-- Zero-padded four-digit year rendering. -/
def pad4Int (n : Int) : List Char :=
  let ds := renderNat n.natAbs
  (if n < 0 then ['-'] else []) ++ List.replicate (4 - ds.length) '0' ++ ds

/-- Render a civil date as strftime %Y-%m-%d does. -/
def renderDate (ymd : Int × Int × Int) : String :=
  ⟨pad4Int ymd.1 ++ '-' :: pad2Int ymd.2.1 ++ '-' :: pad2Int ymd.2.2⟩

/-- Model of datetime.fromtimestamp(t).strftime('%Y-%m-%d') on fractional epoch
seconds; the process timezone is modelled as UTC. -/
def pyFromtimestampDate (t : ℚ) : String :=
  renderDate (civilFromDays ⌊t / 86400⌋)

/-- One point of a parsed price history. -/
structure PriceHistoryPoint where
  date : String
  timestamp : Int
  price : ℚ
deriving DecidableEq

/-- Input of parse_price_history: the daily and average mappings of the wire
payload, as insertion-ordered key/value lists (an absent mapping is the empty
list, which is what dict.get(key, {}) supplies). -/
structure HistoryInput where
  daily : List (String × ℚ)
  average : List (String × ℚ)
deriving DecidableEq

/-- Output of parse_price_history. -/
structure ParsedHistory where
  daily : List PriceHistoryPoint
  average : List PriceHistoryPoint
deriving DecidableEq

/-- One history entry: the key parses with int() (ValueError otherwise), the
date derives from the millisecond timestamp divided by 1000, and the original
timestamp and price are retained. -/
def mkHistoryPoint (kv : String × ℚ) : Except Unit PriceHistoryPoint :=
  match pyInt kv.1 with
  | some ts => .ok { date := pyFromtimestampDate ((ts : ℚ) / 1000), timestamp := ts, price := kv.2 }
  | none => .error ()

/-- The append loop over one mapping of the history payload. -/
def mapPoints : List (String × ℚ) → Except Unit (List PriceHistoryPoint)
  | [] => .ok []
  | kv :: rest => do
    let p ← mkHistoryPoint kv
    let ps ← mapPoints rest
    .ok (p :: ps)

/-- Sort key of the history sort: ascending timestamp. -/
def tsLE (a b : PriceHistoryPoint) : Prop := a.timestamp ≤ b.timestamp

instance : DecidableRel tsLE :=
  fun a b => inferInstanceAs (Decidable (a.timestamp ≤ b.timestamp))

instance : IsTotal PriceHistoryPoint tsLE :=
  ⟨fun a b => Int.le_total a.timestamp b.timestamp⟩

instance : IsTrans PriceHistoryPoint tsLE :=
  ⟨fun _ _ _ h h2 => Int.le_trans h h2⟩

/-- Embedding of parse_price_history (backend/item_prices.py lines 190-220):
one point per mapping entry, then an ascending stable sort by timestamp
(insertion sort here; Python's list.sort is also stable, and any two stable
sorts agree). -/
def parse_price_history (h : HistoryInput) : Except Unit ParsedHistory := do
  let d ← mapPoints h.daily
  let a ← mapPoints h.average
  .ok { daily := List.insertionSort tsLE d, average := List.insertionSort tsLE a }

/-! ## Price enrichment (backend/item_prices.py, get_item_price_data) -/

/-- The current/today sub-dicts of an item detail payload. -/
structure PricePoint where
  price : Option String
  trend : Option String
deriving DecidableEq

/-- The day30/day90/day180 sub-dicts of an item detail payload. -/
structure TrendEntry where
  trend : Option String
  change : Option String
deriving DecidableEq

/-- The item detail payload fetch_item_detail hands to get_item_price_data;
every key the code reads with .get is optional. -/
structure ItemDetail where
  name : Option String
  description : Option String
  members : Option Bool
  ty : Option String
  typeIcon : Option String
  current : Option PricePoint
  today : Option PricePoint
  day30 : Option TrendEntry
  day90 : Option TrendEntry
  day180 : Option TrendEntry
deriving DecidableEq

/-- The current_price/today blocks of the output record. -/
structure PriceBlock where
  price : ℚ
  price_str : String
  trend : String
deriving DecidableEq

/-- The day30/day90/day180 blocks of the output record. -/
structure TrendBlock where
  trend : String
  change : String
deriving DecidableEq

/-- The price_data dictionary built by get_item_price_data. -/
structure PriceData where
  item_id : Int
  item_name : String
  description : String
  members : Bool
  ty : String
  type_icon : String
  icon_url : String
  large_icon_url : String
  current_price : PriceBlock
  today : PriceBlock
  day30 : TrendBlock
  day90 : TrendBlock
  day180 : TrendBlock
  price_history : Option ParsedHistory
  fetched_at : String
deriving DecidableEq

/-- Embedding of get_item_price_data (backend/item_prices.py lines 223-277),
with the two HTTP fetch results passed in as values (detail for
fetch_item_detail, history for fetch_item_price_history; a present history is
modelled as nonempty, matching the truthiness test) and the clock reading
passed as now.  A missing detail returns none — no placeholder record is built
for it; the Item_{id} fallback applies only when a detail exists but lacks a
name and no caller name is given (an empty caller name is falsy and also falls
through). -/
def get_item_price_data (item_id : Int) (item_name : Option String)
    (detail : Option ItemDetail) (history : Option HistoryInput) (now : String) :
    Except Unit (Option PriceData) :=
  match detail with
  | none => .ok none
  | some d => do
    let fallback := d.name.getD (("Item_") ++ toString item_id)
    let nm : String :=
      match item_name with
      | some n => if n = ("") then fallback else n
      | none => fallback
    let curStr := (d.current.bind (fun c => c.price)).getD ("0")
    let todayStr := (d.today.bind (fun c => c.price)).getD ("0")
    let curPrice ← parse_price curStr
    let todayPrice ← parse_price todayStr
    let hist ← match history with
      | some h => Except.map some (parse_price_history h)
      | none => .ok none
    .ok (some {
      item_id := item_id
      item_name := nm
      description := d.description.getD ("")
      members := d.members.getD true
      ty := d.ty.getD ("")
      type_icon := d.typeIcon.getD ("")
      icon_url := ("https://services.runescape.com/m=itemdb_oldschool/obj_sprite.gif?id=") ++ toString item_id
      large_icon_url := ("https://services.runescape.com/m=itemdb_oldschool/obj_big.gif?id=") ++ toString item_id
      current_price := { price := curPrice, price_str := curStr,
                         trend := (d.current.bind (fun c => c.trend)).getD ("neutral") }
      today := { price := todayPrice, price_str := todayStr,
                 trend := (d.today.bind (fun c => c.trend)).getD ("neutral") }
      day30 := { trend := (d.day30.bind (fun c => c.trend)).getD ("neutral"),
                 change := (d.day30.bind (fun c => c.change)).getD ("0%") }
      day90 := { trend := (d.day90.bind (fun c => c.trend)).getD ("neutral"),
                 change := (d.day90.bind (fun c => c.change)).getD ("0%") }
      day180 := { trend := (d.day180.bind (fun c => c.trend)).getD ("neutral"),
                  change := (d.day180.bind (fun c => c.change)).getD ("0%") }
      price_history := hist
      fetched_at := now })

/-- Embedding of the batch loop of get_multiple_item_prices (backend/
item_prices.py lines 314-332): each item's fetched inputs are processed in
order; an item whose price data comes back None is skipped and the batch
continues. -/
def get_multiple_item_prices
    (items : List (Int × Option String × Option ItemDetail × Option HistoryInput))
    (now : String) : Except Unit (List PriceData) :=
  match items with
  | [] => .ok []
  | it :: rest => do
    let r ← get_item_price_data it.1 it.2.1 it.2.2.1 it.2.2.2 now
    let rs ← get_multiple_item_prices rest now
    match r with
    | some pd => .ok (pd :: rs)
    | none => .ok rs

/-! ## Identifier resolver (backend/item_trends_graphs.py, generate_graph_for_item) -/

/-- Item metadata of the catalog (the item mapping). -/
structure ItemMeta where
  id : Int
  name : String
  examine : Option String
  members : Option Bool
  lowalch : Option Int
  highalch : Option Int
  limit : Option Int
  value : Option Int
deriving DecidableEq

/-- Modelled from the spec: get_item_by_id is imported from item_prices but that
function is absent from src; per spec section 4.3 it is the by-id catalog
lookup (id is a unique key), returning the metadata or absent. -/
def get_item_by_id (mapping : List ItemMeta) (id : Int) : Option ItemMeta :=
  mapping.find? (fun m => m.id = id)

/-- Substring test on character lists. -/
def startsWithChars : List Char → List Char → Bool
  | [], _ => true
  | _ :: _, [] => false
  | c :: cs, d :: ds => c = d && startsWithChars cs ds

/-- Containment of needle in hay. -/
def containsSub (needle hay : List Char) : Bool :=
  match hay with
  | [] => needle.isEmpty
  | _ :: rest => startsWithChars needle hay || containsSub needle rest

/-- Modelled from the spec: search_item_by_name is imported from item_prices but
that function is absent from src; per spec section 4.3 it is a case-insensitive
substring match against the item names, preserving insertion order with no
ranking. -/
def search_item_by_name (mapping : List ItemMeta) (query : String) : List ItemMeta :=
  mapping.filter (fun m => containsSub (query.data.map lowerChar) (m.name.data.map lowerChar))

/-- The three-way outcome of query resolution; the constructors are the
explicit rendering of the three branches of generate_graph_for_item
(proceed with one item / print the matches and stop / print not-found and
stop). -/
inductive ResolveOutcome where
  | Exact (m : ItemMeta)
  | Ambiguous (ms : List ItemMeta)
  | NotFound
deriving DecidableEq

/-- Embedding of the resolution logic of generate_graph_for_item (backend/
item_trends_graphs.py lines 257-281): try int(query); on success look up only
by id (a miss stops with not-found, never retried as a name search); on
ValueError search by name, with zero matches not-found, several matches
ambiguous carrying the match list the code prints from, and exactly one match
proceeding with that item. -/
def resolveItem (query : String) (mapping : List ItemMeta) : ResolveOutcome :=
  match pyInt query with
  | some id =>
    match get_item_by_id mapping id with
    | none => .NotFound
    | some info => .Exact info
  | none =>
    match search_item_by_name mapping query with
    | [] => .NotFound
    | [m] => .Exact m
    | ms => .Ambiguous ms

/-- Image of one history entry under a successful decode (used to state the
one-point-per-entry property). -/
def pointOf (kv : String × ℚ) : PriceHistoryPoint :=
  { date := pyFromtimestampDate ((((pyInt kv.1).getD 0 : Int) : ℚ) / 1000),
    timestamp := (pyInt kv.1).getD 0,
    price := kv.2 }

/-- A well-formed 98-line hiscore feed: the line count the spec claims the
taxonomy requires (24 + 17 + 57), one line short of the real 99. -/
def feed98 : String :=
  "1,2,3\n1,2,3\n1,2,3\n1,2,3\n1,2,3\n1,2,3\n1,2,3\n1,2,3\n1,2,3\n1,2,3\n1,2,3\n1,2,3\n1,2,3\n1,2,3\n1,2,3\n1,2,3\n1,2,3\n1,2,3\n1,2,3\n1,2,3\n1,2,3\n1,2,3\n1,2,3\n1,2,3\n1,2,3\n1,2,3\n1,2,3\n1,2,3\n1,2,3\n1,2,3\n1,2,3\n1,2,3\n1,2,3\n1,2,3\n1,2,3\n1,2,3\n1,2,3\n1,2,3\n1,2,3\n1,2,3\n1,2,3\n1,2,3\n1,2,3\n1,2,3\n1,2,3\n1,2,3\n1,2,3\n1,2,3\n1,2,3\n1,2,3\n1,2,3\n1,2,3\n1,2,3\n1,2,3\n1,2,3\n1,2,3\n1,2,3\n1,2,3\n1,2,3\n1,2,3\n1,2,3\n1,2,3\n1,2,3\n1,2,3\n1,2,3\n1,2,3\n1,2,3\n1,2,3\n1,2,3\n1,2,3\n1,2,3\n1,2,3\n1,2,3\n1,2,3\n1,2,3\n1,2,3\n1,2,3\n1,2,3\n1,2,3\n1,2,3\n1,2,3\n1,2,3\n1,2,3\n1,2,3\n1,2,3\n1,2,3\n1,2,3\n1,2,3\n1,2,3\n1,2,3\n1,2,3\n1,2,3\n1,2,3\n1,2,3\n1,2,3\n1,2,3\n1,2,3\n1,2,3"

/-- A complete, well-formed 99-line hiscore feed: one line per entry of the
code's taxonomy (24 skills + 17 activities + 58 bosses). -/
def feed99 : String :=
  "1,2,3\n1,2,3\n1,2,3\n1,2,3\n1,2,3\n1,2,3\n1,2,3\n1,2,3\n1,2,3\n1,2,3\n1,2,3\n1,2,3\n1,2,3\n1,2,3\n1,2,3\n1,2,3\n1,2,3\n1,2,3\n1,2,3\n1,2,3\n1,2,3\n1,2,3\n1,2,3\n1,2,3\n1,2,3\n1,2,3\n1,2,3\n1,2,3\n1,2,3\n1,2,3\n1,2,3\n1,2,3\n1,2,3\n1,2,3\n1,2,3\n1,2,3\n1,2,3\n1,2,3\n1,2,3\n1,2,3\n1,2,3\n1,2,3\n1,2,3\n1,2,3\n1,2,3\n1,2,3\n1,2,3\n1,2,3\n1,2,3\n1,2,3\n1,2,3\n1,2,3\n1,2,3\n1,2,3\n1,2,3\n1,2,3\n1,2,3\n1,2,3\n1,2,3\n1,2,3\n1,2,3\n1,2,3\n1,2,3\n1,2,3\n1,2,3\n1,2,3\n1,2,3\n1,2,3\n1,2,3\n1,2,3\n1,2,3\n1,2,3\n1,2,3\n1,2,3\n1,2,3\n1,2,3\n1,2,3\n1,2,3\n1,2,3\n1,2,3\n1,2,3\n1,2,3\n1,2,3\n1,2,3\n1,2,3\n1,2,3\n1,2,3\n1,2,3\n1,2,3\n1,2,3\n1,2,3\n1,2,3\n1,2,3\n1,2,3\n1,2,3\n1,2,3\n1,2,3\n1,2,3\n1,2,3"

/-! ## Helper lemmas -/

theorem ebind_ok {ε α β : Type} (a : α) (f : α → Except ε β) :
    (Except.ok a >>= f) = f a := rfl

theorem ebind_error {ε α β : Type} (e : ε) (f : α → Except ε β) :
    ((Except.error e : Except ε α) >>= f) = Except.error e := rfl

theorem parseField_sentinel (d : Int) : parseField ("-1") d = .ok d := rfl

theorem parseField_ok {s : String} (d : Int) (h : fieldOk s = true) :
    ∃ m, parseField s d = .ok m := by
  unfold fieldOk at h
  by_cases hs : s = ("-1")
  · exact ⟨d, by simp [parseField, hs]⟩
  · rw [Bool.or_eq_true] at h
    rcases h with h | h
    · exact absurd (of_decide_eq_true h) hs
    · obtain ⟨n, hn⟩ := Option.isSome_iff_exists.mp h
      exact ⟨n, by simp [parseField, hs, hn]⟩

theorem parseSkillLine_ok (n l : String) (h : skillLineOk l = true) :
    ∃ rc, parseSkillLine n l = .ok (some (n, rc)) := by
  unfold skillLineOk at h
  rw [Bool.and_eq_true, Bool.and_eq_true, Bool.and_eq_true] at h
  obtain ⟨⟨⟨hlen, h0⟩, h1⟩, h2⟩ := h
  obtain ⟨m0, hm0⟩ := parseField_ok (-1) h0
  obtain ⟨m1, hm1⟩ := parseField_ok 1 h1
  obtain ⟨m2, hm2⟩ := parseField_ok 0 h2
  refine ⟨⟨displayName n, m0, m1, m2⟩, ?_⟩
  simp only [parseSkillLine]
  rw [if_pos (of_decide_eq_true hlen), hm0, ebind_ok, hm1, ebind_ok, hm2, ebind_ok]

theorem parseActivityLine_ok (n l : String) (h : shortLineOk l = true) :
    ∃ rc, parseActivityLine n l = .ok (some (n, rc)) := by
  unfold shortLineOk at h
  rw [Bool.and_eq_true, Bool.and_eq_true] at h
  obtain ⟨⟨hlen, h0⟩, h1⟩ := h
  obtain ⟨m0, hm0⟩ := parseField_ok (-1) h0
  obtain ⟨m1, hm1⟩ := parseField_ok 0 h1
  refine ⟨⟨displayName n, m0, m1⟩, ?_⟩
  simp only [parseActivityLine]
  rw [if_pos (of_decide_eq_true hlen), hm0, ebind_ok, hm1, ebind_ok]

theorem parseBossLine_ok (n l : String) (h : shortLineOk l = true) :
    ∃ rc, parseBossLine n l = .ok (some (n, rc)) := by
  unfold shortLineOk at h
  rw [Bool.and_eq_true, Bool.and_eq_true] at h
  obtain ⟨⟨hlen, h0⟩, h1⟩ := h
  obtain ⟨m0, hm0⟩ := parseField_ok (-1) h0
  obtain ⟨m1, hm1⟩ := parseField_ok 0 h1
  refine ⟨⟨displayName n, m0, m1⟩, ?_⟩
  simp only [parseBossLine]
  rw [if_pos (of_decide_eq_true hlen), hm0, ebind_ok, hm1, ebind_ok]

theorem parseSkillLine_fst (n l : String) (rc : String × SkillRecord)
    (h : parseSkillLine n l = .ok (some rc)) : rc.1 = n := by
  unfold parseSkillLine at h
  by_cases hlen : (fields l).length ≥ 3
  · simp only [if_pos hlen] at h
    cases e0 : parseField ((fields l).getD 0 ("")) (-1) with
    | error u => rw [e0, ebind_error] at h; exact absurd h (by simp)
    | ok m0 =>
      rw [e0, ebind_ok] at h
      cases e1 : parseField ((fields l).getD 1 ("")) 1 with
      | error u => rw [e1, ebind_error] at h; exact absurd h (by simp)
      | ok m1 =>
        rw [e1, ebind_ok] at h
        cases e2 : parseField ((fields l).getD 2 ("")) 0 with
        | error u => rw [e2, ebind_error] at h; exact absurd h (by simp)
        | ok m2 =>
          rw [e2, ebind_ok] at h
          simp only [Except.ok.injEq, Option.some.injEq] at h
          rw [← h]
  · simp only [if_neg hlen] at h
    exact absurd h (by simp)

theorem parseActivityLine_fst (n l : String) (rc : String × ActivityRecord)
    (h : parseActivityLine n l = .ok (some rc)) : rc.1 = n := by
  unfold parseActivityLine at h
  by_cases hlen : (fields l).length ≥ 2
  · simp only [if_pos hlen] at h
    cases e0 : parseField ((fields l).getD 0 ("")) (-1) with
    | error u => rw [e0, ebind_error] at h; exact absurd h (by simp)
    | ok m0 =>
      rw [e0, ebind_ok] at h
      cases e1 : parseField ((fields l).getD 1 ("")) 0 with
      | error u => rw [e1, ebind_error] at h; exact absurd h (by simp)
      | ok m1 =>
        rw [e1, ebind_ok] at h
        simp only [Except.ok.injEq, Option.some.injEq] at h
        rw [← h]
  · simp only [if_neg hlen] at h
    exact absurd h (by simp)

theorem parseBossLine_fst (n l : String) (rc : String × BossRecord)
    (h : parseBossLine n l = .ok (some rc)) : rc.1 = n := by
  unfold parseBossLine at h
  by_cases hlen : (fields l).length ≥ 2
  · simp only [if_pos hlen] at h
    cases e0 : parseField ((fields l).getD 0 ("")) (-1) with
    | error u => rw [e0, ebind_error] at h; exact absurd h (by simp)
    | ok m0 =>
      rw [e0, ebind_ok] at h
      cases e1 : parseField ((fields l).getD 1 ("")) 0 with
      | error u => rw [e1, ebind_error] at h; exact absurd h (by simp)
      | ok m1 =>
        rw [e1, ebind_ok] at h
        simp only [Except.ok.injEq, Option.some.injEq] at h
        rw [← h]
  · simp only [if_neg hlen] at h
    exact absurd h (by simp)

theorem parseSection_ok {ρ : Type}
    (f : String → String → Except Unit (Option (String × ρ)))
    (lineOk : String → Bool)
    (hf : ∀ n l, lineOk l = true → ∃ rc, f n l = .ok (some (n, rc))) :
    ∀ (names lines : List String),
      (∀ p ∈ names.zip lines, lineOk p.2 = true) →
      ∃ recs, parseSection f names lines = .ok (recs, lines.drop names.length) ∧
        recs.map Prod.fst = names.take lines.length := by
  intro names
  induction names with
  | nil => exact fun lines _ => ⟨[], by simp [parseSection], by simp⟩
  | cons n ns ih =>
    intro lines h
    cases lines with
    | nil =>
      obtain ⟨recs, hr, hm⟩ := ih [] (by simp)
      have hnil : recs = [] := by simpa using hm
      subst hnil
      exact ⟨[], by simp [parseSection, hr, ebind_ok], by simp⟩
    | cons l ls =>
      have hok : lineOk l = true := h (n, l) (by simp [List.zip_cons_cons])
      obtain ⟨rc, hrc⟩ := hf n l hok
      obtain ⟨recs, hr, hm⟩ := ih ls (fun p hp => h p (by simp [List.zip_cons_cons, hp]))
      refine ⟨(n, rc) :: recs, ?_, ?_⟩
      · simp [parseSection, hrc, hr, ebind_ok]
      · simp [hm]

theorem parseSection_keys_sublist {ρ : Type}
    (f : String → String → Except Unit (Option (String × ρ)))
    (hf : ∀ n l rc, f n l = .ok (some rc) → rc.1 = n) :
    ∀ (names lines : List String) (recs : List (String × ρ)) (rest : List String),
      parseSection f names lines = .ok (recs, rest) →
        List.Sublist (recs.map Prod.fst) names := by
  intro names
  induction names with
  | nil =>
    intro lines recs rest h
    simp only [parseSection, Except.ok.injEq, Prod.mk.injEq] at h
    rw [← h.1]
    simp
  | cons n ns ih =>
    intro lines recs rest h
    cases lines with
    | nil =>
      cases e : parseSection f ns [] with
      | error u => rw [parseSection, e, ebind_error] at h; exact absurd h (by simp)
      | ok r =>
        rw [parseSection, e, ebind_ok] at h
        simp only [Except.ok.injEq] at h
        exact (ih [] recs rest (by rw [e, h])).cons n
    | cons l ls =>
      cases e0 : f n l with
      | error u => rw [parseSection, e0, ebind_error] at h; exact absurd h (by simp)
      | ok rc? =>
        rw [parseSection, e0, ebind_ok] at h
        cases e1 : parseSection f ns ls with
        | error u => rw [e1, ebind_error] at h; exact absurd h (by simp)
        | ok r =>
          rw [e1, ebind_ok] at h
          have hsub := ih ls r.1 r.2 (by rw [e1])
          cases rc? with
          | none =>
            simp only [Except.ok.injEq, Prod.mk.injEq] at h
            rw [← h.1]
            exact hsub.cons n
          | some rc =>
            simp only [Except.ok.injEq, Prod.mk.injEq] at h
            rw [← h.1]
            have hfst : rc.1 = n := hf n l rc e0
            simp only [List.map_cons, hfst]
            exact hsub.cons₂ n

theorem skillsOrder_nodup : skillsOrder.Nodup := by decide

theorem activitiesOrder_nodup : activitiesOrder.Nodup := by decide

theorem bossesOrder_nodup : bossesOrder.Nodup := by decide

/-! ## Claims about the hiscore decoder -/

/-- Claim C1 counterexample: a feed line with rank field "-1" decodes to a
record whose rank IS the literal integer -1 — the sentinel is exposed to
callers, not replaced by a distinct unranked marker. -/
theorem rank_sentinel_exposed_ce :
    parse_hiscores_data ("-1,50,1000") =
      .ok { skills := [(("overall"),
              { skill_name := ("Overall"), rank := -1, level := 50, xp := 1000 })],
            activities := [], bosses := [] } := by
  decide

/-- Claim C1 (amended): for every feed line whose rank field is the literal
"-1" (and whose other consumed fields decode), parse_hiscores_data's line
decoders produce a record whose rank is the literal integer -1: the wire
sentinel is passed through to callers unchanged, with no distinct unranked
marker. -/
theorem rank_sentinel_passthrough (name line : String)
    (h0 : (fields line).getD 0 ("") = "-1") :
    ((fields line).length ≥ 3 → fieldOk ((fields line).getD 1 ("")) = true →
        fieldOk ((fields line).getD 2 ("")) = true →
        ∃ rc, parseSkillLine name line = .ok (some (name, rc)) ∧ rc.rank = -1) ∧
    ((fields line).length ≥ 2 → fieldOk ((fields line).getD 1 ("")) = true →
        (∃ rc, parseActivityLine name line = .ok (some (name, rc)) ∧ rc.rank = -1) ∧
        (∃ rc, parseBossLine name line = .ok (some (name, rc)) ∧ rc.rank = -1)) := by
  constructor
  · intro hlen h1 h2
    obtain ⟨m1, hm1⟩ := parseField_ok 1 h1
    obtain ⟨m2, hm2⟩ := parseField_ok 0 h2
    refine ⟨⟨displayName name, -1, m1, m2⟩, ?_, rfl⟩
    simp only [parseSkillLine]
    rw [if_pos hlen, h0, parseField_sentinel, ebind_ok, hm1, ebind_ok, hm2, ebind_ok]
  · intro hlen h1
    obtain ⟨m1, hm1⟩ := parseField_ok 0 h1
    constructor
    · refine ⟨⟨displayName name, -1, m1⟩, ?_, rfl⟩
      simp only [parseActivityLine]
      rw [if_pos hlen, h0, parseField_sentinel, ebind_ok, hm1, ebind_ok]
    · refine ⟨⟨displayName name, -1, m1⟩, ?_, rfl⟩
      simp only [parseBossLine]
      rw [if_pos hlen, h0, parseField_sentinel, ebind_ok, hm1, ebind_ok]

/-- Claim C1 witness: the amended theorem at a concrete unranked skill line. -/
theorem rank_sentinel_passthrough_witness :
    ∃ rc, parseSkillLine ("overall") ("-1,2,3") = .ok (some (("overall"), rc)) ∧
      rc.rank = -1 :=
  (rank_sentinel_passthrough ("overall") ("-1,2,3") (by decide)).1
    (by decide) (by decide) (by decide)

/-- Claim C2 counterexample: the empty feed is far shorter than the 98 lines
the taxonomy requires, yet decoding returns an ordinary success value (empty
mappings), indistinguishable in type and shape from a successful decode — no
explicit incomplete-data condition is surfaced. -/
theorem short_feed_silent_success_ce :
    parse_hiscores_data ("") = .ok { skills := [], activities := [], bosses := [] } := by
  decide

/-- Claim C2 (amended): a feed with fewer lines than the taxonomy requires
(well-formed lines) decodes WITHOUT any explicit failure: the result is an
ordinary success carrying a record for exactly the lines present (a prefix of
each taxonomy), silently missing the rest. -/
theorem short_feed_partial_success (data : String)
    (_hshort : (hiscoreLines data).length < 99)
    (hs : ∀ p ∈ skillsOrder.zip (hiscoreLines data), skillLineOk p.2 = true)
    (ha : ∀ p ∈ activitiesOrder.zip ((hiscoreLines data).drop 24), shortLineOk p.2 = true)
    (hb : ∀ p ∈ bossesOrder.zip ((hiscoreLines data).drop 41), shortLineOk p.2 = true) :
    ∃ r, parse_hiscores_data data = .ok r ∧
      r.skills.map Prod.fst = skillsOrder.take (hiscoreLines data).length ∧
      r.activities.map Prod.fst = activitiesOrder.take ((hiscoreLines data).length - 24) ∧
      r.bosses.map Prod.fst = bossesOrder.take ((hiscoreLines data).length - 41) := by
  obtain ⟨r1, e1, m1⟩ :=
    parseSection_ok parseSkillLine skillLineOk parseSkillLine_ok skillsOrder
      (hiscoreLines data) hs
  obtain ⟨r2, e2, m2⟩ :=
    parseSection_ok parseActivityLine shortLineOk parseActivityLine_ok activitiesOrder
      ((hiscoreLines data).drop 24) ha
  obtain ⟨r3, e3, m3⟩ :=
    parseSection_ok parseBossLine shortLineOk parseBossLine_ok bossesOrder
      ((hiscoreLines data).drop 41) hb
  have e1' : parseSection parseSkillLine skillsOrder (hiscoreLines data) =
      .ok (r1, (hiscoreLines data).drop 24) := e1
  have e2' : parseSection parseActivityLine activitiesOrder ((hiscoreLines data).drop 24) =
      .ok (r2, (hiscoreLines data).drop 41) := by
    rw [e2]
    simp only [List.drop_drop]
    rfl
  refine ⟨⟨r1, r2, r3⟩, ?_, ?_, ?_, ?_⟩
  · unfold parse_hiscores_data
    simp [e1', e2', e3, ebind_ok]
  · rw [m1]
  · rw [m2, List.length_drop]
  · rw [m3, List.length_drop]

/-- Claim C2 witness: the amended theorem at a concrete one-line feed. -/
theorem short_feed_partial_success_witness :
    ∃ r, parse_hiscores_data ("5,6,7") = .ok r ∧
      r.skills.map Prod.fst = skillsOrder.take (hiscoreLines ("5,6,7")).length ∧
      r.activities.map Prod.fst = activitiesOrder.take ((hiscoreLines ("5,6,7")).length - 24) ∧
      r.bosses.map Prod.fst = bossesOrder.take ((hiscoreLines ("5,6,7")).length - 41) :=
  short_feed_partial_success ("5,6,7") (by decide) (by decide) (by decide) (by decide)

set_option maxRecDepth 40000 in
/-- Claim C6 counterexample: the code's boss taxonomy has 58 entries, not the
57 the claim counts, so a well-formed feed of the claimed 24 + 17 + 57 = 98
lines decodes successfully yet leaves the last boss id (zulrah) with no entry
at all — the taxonomy is not covered at the claimed line count. -/
theorem complete_feed_miscount_ce :
    (parse_hiscores_data feed98).map
        (fun r => (r.bosses.map Prod.fst).count ("zulrah")) = .ok 0 := by
  decide

/-- Claim C6 (amended): a feed with exactly one well-formed line per taxonomy
entry in taxonomy order (99 lines — the taxonomy holds 24 skills, 17
activities and 58 bosses; skill lines with at least 3 integer comma fields,
activity and boss lines with at least 2) decodes to a result in which every
taxonomy id occurs exactly once as a key of its mapping. -/
theorem complete_feed_covers_taxonomy (data : String)
    (hlen : (hiscoreLines data).length = 99)
    (hs : ∀ p ∈ skillsOrder.zip (hiscoreLines data), skillLineOk p.2 = true)
    (ha : ∀ p ∈ activitiesOrder.zip ((hiscoreLines data).drop 24), shortLineOk p.2 = true)
    (hb : ∀ p ∈ bossesOrder.zip ((hiscoreLines data).drop 41), shortLineOk p.2 = true) :
    ∃ r, parse_hiscores_data data = .ok r ∧
      (∀ sk ∈ skillsOrder, (r.skills.map Prod.fst).count sk = 1) ∧
      (∀ ac ∈ activitiesOrder, (r.activities.map Prod.fst).count ac = 1) ∧
      (∀ bo ∈ bossesOrder, (r.bosses.map Prod.fst).count bo = 1) := by
  obtain ⟨r1, e1, m1⟩ :=
    parseSection_ok parseSkillLine skillLineOk parseSkillLine_ok skillsOrder
      (hiscoreLines data) hs
  obtain ⟨r2, e2, m2⟩ :=
    parseSection_ok parseActivityLine shortLineOk parseActivityLine_ok activitiesOrder
      ((hiscoreLines data).drop 24) ha
  obtain ⟨r3, e3, m3⟩ :=
    parseSection_ok parseBossLine shortLineOk parseBossLine_ok bossesOrder
      ((hiscoreLines data).drop 41) hb
  have e1' : parseSection parseSkillLine skillsOrder (hiscoreLines data) =
      .ok (r1, (hiscoreLines data).drop 24) := e1
  have e2' : parseSection parseActivityLine activitiesOrder ((hiscoreLines data).drop 24) =
      .ok (r2, (hiscoreLines data).drop 41) := by
    rw [e2]
    simp only [List.drop_drop]
    rfl
  have hm1 : r1.map Prod.fst = skillsOrder := by
    rw [m1, hlen]
    decide
  have hm2 : r2.map Prod.fst = activitiesOrder := by
    rw [m2, List.length_drop, hlen]
    decide
  have hm3 : r3.map Prod.fst = bossesOrder := by
    rw [m3, List.length_drop, hlen]
    decide
  refine ⟨⟨r1, r2, r3⟩, ?_, ?_, ?_, ?_⟩
  · unfold parse_hiscores_data
    simp [e1', e2', e3, ebind_ok]
  · intro sk hsk
    simpa [hm1] using List.count_eq_one_of_mem skillsOrder_nodup hsk
  · intro ac hac
    simpa [hm2] using List.count_eq_one_of_mem activitiesOrder_nodup hac
  · intro bo hbo
    simpa [hm3] using List.count_eq_one_of_mem bossesOrder_nodup hbo

set_option maxRecDepth 40000 in
/-- Claim C6 witness: the amended theorem at a concrete complete 99-line feed. -/
theorem complete_feed_covers_taxonomy_witness :
    ∃ r, parse_hiscores_data feed99 = .ok r ∧
      (∀ sk ∈ skillsOrder, (r.skills.map Prod.fst).count sk = 1) ∧
      (∀ ac ∈ activitiesOrder, (r.activities.map Prod.fst).count ac = 1) ∧
      (∀ bo ∈ bossesOrder, (r.bosses.map Prod.fst).count bo = 1) :=
  complete_feed_covers_taxonomy feed99 (by decide) (by decide) (by decide) (by decide)

/-- Claim C9: on a well-formed line (rank field decodable), a level field equal
to the sentinel "-1" decodes to level 1, an experience field equal to "-1"
decodes to xp 0, and a "-1" score or kills field of an activity or boss line
decodes to 0. -/
theorem sentinel_defaults_level_xp_score (name line : String)
    (h0 : fieldOk ((fields line).getD 0 ("")) = true) :
    ((fields line).length ≥ 3 → (fields line).getD 1 ("") = "-1" →
        (fields line).getD 2 ("") = "-1" →
        ∃ rc, parseSkillLine name line = .ok (some (name, rc)) ∧
          rc.level = 1 ∧ rc.xp = 0) ∧
    ((fields line).length ≥ 2 → (fields line).getD 1 ("") = "-1" →
        (∃ rc, parseActivityLine name line = .ok (some (name, rc)) ∧ rc.score = 0) ∧
        (∃ rc, parseBossLine name line = .ok (some (name, rc)) ∧ rc.kills = 0)) := by
  obtain ⟨m0, hm0⟩ := parseField_ok (-1) h0
  constructor
  · intro hlen h1 h2
    refine ⟨⟨displayName name, m0, 1, 0⟩, ?_, rfl, rfl⟩
    simp only [parseSkillLine]
    rw [if_pos hlen, hm0, ebind_ok, h1, parseField_sentinel, ebind_ok, h2,
      parseField_sentinel, ebind_ok]
  · intro hlen h1
    constructor
    · refine ⟨⟨displayName name, m0, 0⟩, ?_, rfl⟩
      simp only [parseActivityLine]
      rw [if_pos hlen, hm0, ebind_ok, h1, parseField_sentinel, ebind_ok]
    · refine ⟨⟨displayName name, m0, 0⟩, ?_, rfl⟩
      simp only [parseBossLine]
      rw [if_pos hlen, hm0, ebind_ok, h1, parseField_sentinel, ebind_ok]

/-- Claim C9 witness: the theorem at a concrete all-sentinel skill line. -/
theorem sentinel_defaults_level_xp_score_witness :
    ∃ rc, parseSkillLine ("attack") ("-1,-1,-1") = .ok (some (("attack"), rc)) ∧
      rc.level = 1 ∧ rc.xp = 0 :=
  (sentinel_defaults_level_xp_score ("attack") ("-1,-1,-1") (by decide)).1
    (by decide) (by decide) (by decide)

/-- Claim C10 counterexample: parse_hiscores_data does NOT return a dictionary
for every input string — a consumed field that is not an integer raises an
uncaught ValueError (modelled as the error result). -/
theorem parse_hiscores_raises_ce : parse_hiscores_data ("x,y,z") = .error () := by
  decide

/-- Claim C10 (amended): whenever parse_hiscores_data returns (that is, no
consumed field raises ValueError), the result carries exactly the three
collections skills/activities/bosses (enforced by the result type), each keyed
only by ids of its fixed taxonomy, without duplicates; each inner record
carries exactly the fixed field set of its kind (enforced by the record
types). -/
theorem hiscores_keys_subset_taxonomy (data : String) (r : ParsedPlayerData)
    (h : parse_hiscores_data data = .ok r) :
    ((∀ k ∈ r.skills.map Prod.fst, k ∈ skillsOrder) ∧ (r.skills.map Prod.fst).Nodup) ∧
    ((∀ k ∈ r.activities.map Prod.fst, k ∈ activitiesOrder) ∧
      (r.activities.map Prod.fst).Nodup) ∧
    ((∀ k ∈ r.bosses.map Prod.fst, k ∈ bossesOrder) ∧ (r.bosses.map Prod.fst).Nodup) := by
  unfold parse_hiscores_data at h
  cases e1 : parseSection parseSkillLine skillsOrder (hiscoreLines data) with
  | error u => rw [e1, ebind_error] at h; exact absurd h (by simp)
  | ok s =>
    rw [e1, ebind_ok] at h
    cases e2 : parseSection parseActivityLine activitiesOrder s.2 with
    | error u => rw [e2, ebind_error] at h; exact absurd h (by simp)
    | ok a =>
      rw [e2, ebind_ok] at h
      cases e3 : parseSection parseBossLine bossesOrder a.2 with
      | error u => rw [e3, ebind_error] at h; exact absurd h (by simp)
      | ok b =>
        rw [e3, ebind_ok] at h
        simp only [Except.ok.injEq] at h
        have hs := parseSection_keys_sublist parseSkillLine parseSkillLine_fst
          skillsOrder (hiscoreLines data) s.1 s.2 (by rw [e1])
        have ha := parseSection_keys_sublist parseActivityLine parseActivityLine_fst
          activitiesOrder s.2 a.1 a.2 (by rw [e2])
        have hb := parseSection_keys_sublist parseBossLine parseBossLine_fst
          bossesOrder a.2 b.1 b.2 (by rw [e3])
        rw [← h]
        exact ⟨⟨fun k hk => hs.subset hk, hs.nodup skillsOrder_nodup⟩,
          ⟨fun k hk => ha.subset hk, ha.nodup activitiesOrder_nodup⟩,
          ⟨fun k hk => hb.subset hk, hb.nodup bossesOrder_nodup⟩⟩

/-- Claim C10 witness: the amended theorem at a concrete feed. -/
theorem hiscores_keys_subset_taxonomy_witness :
    ((∀ k ∈ ([(("overall"),
          { skill_name := ("Overall"), rank := 7, level := 8,
            xp := 9 : SkillRecord })].map Prod.fst), k ∈ skillsOrder) ∧
      (([(("overall"),
          { skill_name := ("Overall"), rank := 7, level := 8,
            xp := 9 : SkillRecord })].map Prod.fst)).Nodup) ∧
    ((∀ k ∈ (([] : List (String × ActivityRecord)).map Prod.fst), k ∈ activitiesOrder) ∧
      ((([] : List (String × ActivityRecord)).map Prod.fst)).Nodup) ∧
    ((∀ k ∈ (([] : List (String × BossRecord)).map Prod.fst), k ∈ bossesOrder) ∧
      ((([] : List (String × BossRecord)).map Prod.fst)).Nodup) :=
  hiscores_keys_subset_taxonomy ("7,8,9")
    { skills := [(("overall"),
        { skill_name := ("Overall"), rank := 7, level := 8, xp := 9 })],
      activities := [], bosses := [] }
    (by decide)

/-! ## Claims about the price layer -/

/-- Claim C3 counterexample: a price lookup whose item id has no catalog
detail yields NO output record at all (the function returns None), not a
record named "Unknown Item 42" — the placeholder string "Unknown Item {id}"
appears nowhere in the code. -/
theorem unknown_item_placeholder_ce :
    get_item_price_data 42 none none none ("t") = .ok none := rfl

/-- Claim C3 (amended): an item id absent from the catalog (no detail record)
produces no output record — get_item_price_data returns none for it, and the
batch loop of get_multiple_item_prices skips it and continues with the other
items; the only name placeholder is "Item_{id}", used when a detail record
exists but carries no name and the caller supplies none, in which case the
output record is built with its numeric fields parsed from the raw strings. -/
theorem unknown_item_no_record :
    (∀ (item_id : Int) (item_name : Option String) (history : Option HistoryInput)
        (now : String),
      get_item_price_data item_id item_name none history now = .ok none) ∧
    (∀ (item_id : Int) (d : ItemDetail) (now : String),
      d.name = none → d.current = none → d.today = none →
      ∃ pd, get_item_price_data item_id none (some d) none now = .ok (some pd) ∧
        pd.item_name = ("Item_") ++ toString item_id ∧
        pd.item_id = item_id ∧
        pd.current_price.price_str = ("0") ∧ pd.today.price_str = ("0")) ∧
    (∀ (item_id : Int) (item_name : Option String) (now : String)
        (items : List (Int × Option String × Option ItemDetail × Option HistoryInput)),
      get_multiple_item_prices ((item_id, item_name, none, none) :: items) now =
        get_multiple_item_prices items now) := by
  refine ⟨fun _ _ _ _ => rfl, ?_, ?_⟩
  · intro item_id d now hn hc ht
    obtain ⟨q0, hq0⟩ : ∃ q, parse_price (("0")) = .ok q := ⟨_, rfl⟩
    refine ⟨{ item_id := item_id
              item_name := ("Item_") ++ toString item_id
              description := d.description.getD ("")
              members := d.members.getD true
              ty := d.ty.getD ("")
              type_icon := d.typeIcon.getD ("")
              icon_url := ("https://services.runescape.com/m=itemdb_oldschool/obj_sprite.gif?id=")
                ++ toString item_id
              large_icon_url := ("https://services.runescape.com/m=itemdb_oldschool/obj_big.gif?id=")
                ++ toString item_id
              current_price := { price := q0, price_str := ("0"), trend := ("neutral") }
              today := { price := q0, price_str := ("0"), trend := ("neutral") }
              day30 := { trend := (d.day30.bind (fun c => c.trend)).getD ("neutral"),
                         change := (d.day30.bind (fun c => c.change)).getD ("0%") }
              day90 := { trend := (d.day90.bind (fun c => c.trend)).getD ("neutral"),
                         change := (d.day90.bind (fun c => c.change)).getD ("0%") }
              day180 := { trend := (d.day180.bind (fun c => c.trend)).getD ("neutral"),
                          change := (d.day180.bind (fun c => c.change)).getD ("0%") }
              price_history := none
              fetched_at := now }, ?_, rfl, rfl, rfl, rfl⟩
    simp [get_item_price_data, hn, hc, ht, hq0, ebind_ok]
  · intro item_id item_name now items
    conv_lhs => rw [get_multiple_item_prices]
    rw [show get_item_price_data item_id item_name none none now = .ok none from rfl,
      ebind_ok]
    cases hrest : get_multiple_item_prices items now with
    | error u => rfl
    | ok rs => rfl

/-- Claim C3 witness: the amended theorem at concrete inputs — the batch skip
at id 42 and the Item_7 fallback for a nameless detail record. -/
theorem unknown_item_no_record_witness :
    get_multiple_item_prices [(42, none, none, none)] ("t") =
      get_multiple_item_prices [] ("t") ∧
    ∃ pd, get_item_price_data 7 none
        (some { name := none, description := none, members := none, ty := none,
                typeIcon := none, current := none, today := none, day30 := none,
                day90 := none, day180 := none }) none ("t") = .ok (some pd) ∧
      pd.item_name = ("Item_") ++ toString (7 : Int) ∧
      pd.item_id = 7 ∧
      pd.current_price.price_str = ("0") ∧ pd.today.price_str = ("0") :=
  ⟨unknown_item_no_record.2.2 42 none ("t") [],
   unknown_item_no_record.2.1 7
     { name := none, description := none, members := none, ty := none,
       typeIcon := none, current := none, today := none, day30 := none,
       day90 := none, day180 := none } ("t") rfl rfl rfl⟩

/-- Claim C4: parse_price does NOT return a numeric result for every input
string — on the input "k" the suffix branch calls float('') OUTSIDE the
try/except, an uncaught ValueError (likewise "," hits an uncaught IndexError);
the claim's failing inputs notwithstanding, empty input does return 0 and an
unparseable suffix-free input returns 0.  This theorem evaluates the code at
the failing input. -/
theorem parse_price_bare_suffix_raises :
    parse_price ("k") = .error () ∧ parse_price (",") = .error () ∧
    parse_price ("") = .ok 0 ∧ parse_price ("garbage") = .ok 0 :=
  ⟨rfl, rfl, rfl, rfl⟩

/-- Claim C5: resolution tries int(query) first; a numeric query is resolved
only by id (an id miss is NotFound and is never retried as a name search),
and a non-numeric query is resolved by name search with zero results NotFound,
exactly one result Exact, and several results Ambiguous carrying the full
match set. -/
theorem resolver_three_way (query : String) (mapping : List ItemMeta) :
    (∀ n, pyInt query = some n →
      (get_item_by_id mapping n = none → resolveItem query mapping = .NotFound) ∧
      (∀ m, get_item_by_id mapping n = some m → resolveItem query mapping = .Exact m)) ∧
    (pyInt query = none →
      (search_item_by_name mapping query = [] → resolveItem query mapping = .NotFound) ∧
      (∀ m, search_item_by_name mapping query = [m] →
        resolveItem query mapping = .Exact m) ∧
      ((search_item_by_name mapping query).length > 1 →
        resolveItem query mapping = .Ambiguous (search_item_by_name mapping query))) := by
  constructor
  · intro n hn
    constructor
    · intro hmiss
      simp [resolveItem, hn, hmiss]
    · intro m hm
      simp [resolveItem, hn, hm]
  · intro hn
    refine ⟨?_, ?_, ?_⟩
    · intro he
      simp [resolveItem, hn, he]
    · intro m hm
      simp [resolveItem, hn, hm]
    · intro hlen
      cases hs : search_item_by_name mapping query with
      | nil => rw [hs] at hlen; simp at hlen
      | cons m ms =>
        cases ms with
        | nil => rw [hs] at hlen; simp at hlen
        | cons m2 ms2 => simp [resolveItem, hn, hs]

/-- Claim C5 witness: the theorem at the numeric query "4151" on a catalog
containing that id, resolving Exact without a name search. -/
theorem resolver_three_way_witness :
    resolveItem ("4151")
      [{ id := 4151, name := ("Abyssal whip"), examine := none, members := none,
         lowalch := none, highalch := none, limit := none, value := none }] =
      .Exact { id := 4151, name := ("Abyssal whip"), examine := none, members := none,
               lowalch := none, highalch := none, limit := none, value := none } :=
  ((resolver_three_way ("4151")
      [{ id := 4151, name := ("Abyssal whip"), examine := none, members := none,
         lowalch := none, highalch := none, limit := none, value := none }]).1
    4151 (by decide)).2
    { id := 4151, name := ("Abyssal whip"), examine := none, members := none,
      lowalch := none, highalch := none, limit := none, value := none } (by decide)

/-- Claim C7: parse_price_history converts each daily/average mapping entry to
exactly one point (a permutation of the entry images, so nothing is dropped or
duplicated), retains each original millisecond timestamp, derives the calendar
date from the timestamp divided by 1000, and returns both sequences sorted in
ascending timestamp order regardless of input key order. -/
theorem history_points_sorted (h : HistoryInput)
    (hd : ∀ kv ∈ h.daily, (pyInt kv.1).isSome = true)
    (ha : ∀ kv ∈ h.average, (pyInt kv.1).isSome = true) :
    ∃ res, parse_price_history h = .ok res ∧
      res.daily.Perm (h.daily.map pointOf) ∧
      res.average.Perm (h.average.map pointOf) ∧
      List.Sorted tsLE res.daily ∧ List.Sorted tsLE res.average ∧
      (∀ p ∈ res.daily, p.date = pyFromtimestampDate ((p.timestamp : ℚ) / 1000)) ∧
      (∀ p ∈ res.average, p.date = pyFromtimestampDate ((p.timestamp : ℚ) / 1000)) := by
  have mp : ∀ (l : List (String × ℚ)), (∀ kv ∈ l, (pyInt kv.1).isSome = true) →
      mapPoints l = .ok (l.map pointOf) := by
    intro l
    induction l with
    | nil => intro _; rfl
    | cons kv rest ih =>
      intro hkv
      obtain ⟨ts, hts⟩ := Option.isSome_iff_exists.mp (hkv kv (by simp))
      have hone : mkHistoryPoint kv = .ok (pointOf kv) := by
        simp [mkHistoryPoint, pointOf, hts]
      rw [mapPoints, hone, ebind_ok, ih (fun p hp => hkv p (by simp [hp])), ebind_ok]
      rfl
  have hdate : ∀ (l : List (String × ℚ)) (p : PriceHistoryPoint),
      p ∈ List.insertionSort tsLE (l.map pointOf) →
      p.date = pyFromtimestampDate ((p.timestamp : ℚ) / 1000) := by
    intro l p hp
    have hmem : p ∈ l.map pointOf :=
      ((List.perm_insertionSort tsLE (l.map pointOf)).mem_iff).mp hp
    obtain ⟨kv, _, hkv⟩ := List.mem_map.mp hmem
    rw [← hkv]
    rfl
  refine ⟨⟨List.insertionSort tsLE (h.daily.map pointOf),
           List.insertionSort tsLE (h.average.map pointOf)⟩, ?_, ?_, ?_, ?_, ?_, ?_, ?_⟩
  · unfold parse_price_history
    rw [mp h.daily hd, ebind_ok, mp h.average ha, ebind_ok]
  · exact List.perm_insertionSort tsLE _
  · exact List.perm_insertionSort tsLE _
  · exact List.sorted_insertionSort tsLE _
  · exact List.sorted_insertionSort tsLE _
  · exact hdate h.daily
  · exact hdate h.average

/-- Claim C7 witness: the theorem at a concrete two-entry daily mapping whose
keys arrive in descending order. -/
theorem history_points_sorted_witness :
    ∃ res, parse_price_history
        { daily := [(("1700086400000"), 110), (("1700000000000"), 100)], average := [] } =
        .ok res ∧
      res.daily.Perm
        (List.map pointOf [(("1700086400000"), 110), (("1700000000000"), 100)]) ∧
      res.average.Perm (List.map pointOf []) ∧
      List.Sorted tsLE res.daily ∧ List.Sorted tsLE res.average ∧
      (∀ p ∈ res.daily, p.date = pyFromtimestampDate ((p.timestamp : ℚ) / 1000)) ∧
      (∀ p ∈ res.average, p.date = pyFromtimestampDate ((p.timestamp : ℚ) / 1000)) :=
  history_points_sorted
    { daily := [(("1700086400000"), 110), (("1700000000000"), 100)], average := [] }
    (by decide) (by decide)

/-! ## Digit-string lemmas for the round-trip claim -/

theorem digitChar_isDigit (d : Nat) : isDigitB (digitChar d) = true := by
  rcases d with _ | _ | _ | _ | _ | _ | _ | _ | _ | d <;> rfl

theorem digitChar_val {d : Nat} (h : d < 10) : digitVal (digitChar d) = d := by
  interval_cases d <;> rfl

theorem renderNatAux_digits (fuel : Nat) :
    ∀ n c, c ∈ renderNatAux fuel n → isDigitB c = true := by
  induction fuel with
  | zero => intro n c hc; simp [renderNatAux] at hc
  | succ fuel ih =>
    intro n c hc
    unfold renderNatAux at hc
    by_cases hn : n < 10
    · rw [if_pos hn] at hc
      simp at hc
      rw [hc]
      exact digitChar_isDigit n
    · rw [if_neg hn] at hc
      rcases List.mem_append.mp hc with hm | hm
      · exact ih _ c hm
      · simp at hm
        rw [hm]
        exact digitChar_isDigit (n % 10)

theorem renderNat_digits (n : Nat) : ∀ c ∈ renderNat n, isDigitB c = true :=
  fun c hc => renderNatAux_digits (n + 1) n c hc

theorem renderNatAux_ne_nil (fuel n : Nat) (h : 0 < fuel) : renderNatAux fuel n ≠ [] := by
  cases fuel with
  | zero => omega
  | succ fuel =>
    unfold renderNatAux
    by_cases hn : n < 10
    · rw [if_pos hn]
      simp
    · rw [if_neg hn]
      simp

theorem renderNat_ne_nil (n : Nat) : renderNat n ≠ [] :=
  renderNatAux_ne_nil (n + 1) n (by omega)

theorem renderNatAux_val (fuel : Nat) :
    ∀ n, n < 10 ^ fuel → digitsToNat (renderNatAux fuel n) = n := by
  induction fuel with
  | zero =>
    intro n hn
    interval_cases n
    rfl
  | succ fuel ih =>
    intro n hn
    unfold renderNatAux
    by_cases h10 : n < 10
    · rw [if_pos h10]
      simp only [digitsToNat, List.foldl_cons, List.foldl_nil, Nat.mul_zero, Nat.zero_add]
      exact digitChar_val h10
    · rw [if_neg h10]
      have hdiv : n / 10 < 10 ^ fuel := by
        rw [Nat.div_lt_iff_lt_mul (by omega)]
        calc n < 10 ^ (fuel + 1) := hn
        _ = 10 ^ fuel * 10 := by ring
      have hval := ih (n / 10) hdiv
      simp only [digitsToNat, List.foldl_append, List.foldl_cons, List.foldl_nil]
      simp only [digitsToNat] at hval
      rw [hval, digitChar_val (Nat.mod_lt n (by omega))]
      omega

theorem renderNat_val (n : Nat) : digitsToNat (renderNat n) = n :=
  renderNatAux_val (n + 1) n (by
    calc n < 10 ^ n := Nat.lt_pow_self (by omega) n
    _ ≤ 10 ^ (n + 1) := Nat.pow_le_pow_right (by omega) (by omega))

theorem renderNatAux_length (fuel : Nat) :
    ∀ n k, n < 10 ^ (k + 1) → (renderNatAux fuel n).length ≤ k + 1 := by
  induction fuel with
  | zero => intro n k _; simp [renderNatAux]
  | succ fuel ih =>
    intro n k hn
    unfold renderNatAux
    by_cases h10 : n < 10
    · rw [if_pos h10]
      simp
    · rw [if_neg h10]
      cases k with
      | zero => simp at hn; omega
      | succ k =>
        have hdiv : n / 10 < 10 ^ (k + 1) := by
          rw [Nat.div_lt_iff_lt_mul (by omega)]
          calc n < 10 ^ (k + 1 + 1) := hn
          _ = 10 ^ (k + 1) * 10 := by ring
        have := ih (n / 10) k hdiv
        simp only [List.length_append, List.length_cons, List.length_nil]
        omega

theorem renderNat_length_le {n k : Nat} (h : n < 10 ^ (k + 1)) :
    (renderNat n).length ≤ k + 1 :=
  renderNatAux_length (n + 1) n k h

theorem lowerChar_of_digit {c : Char} (h : isDigitB c = true) : lowerChar c = c := by
  simp only [isDigitB, Bool.and_eq_true, decide_eq_true_eq] at h
  unfold lowerChar
  rw [if_neg]
  simp only [Bool.and_eq_true, decide_eq_true_eq, not_and]
  omega

theorem splitSign_of_digit {c : Char} (cs : List Char) (h : isDigitB c = true) :
    splitSign (c :: cs) = (false, c :: cs) := by
  have h1 : c ≠ '-' := fun e => absurd (e ▸ h) (by decide)
  have h2 : c ≠ '+' := fun e => absurd (e ▸ h) (by decide)
  simp [splitSign, h1, h2]

theorem takeDigitsAux_append (ds : List Char) (rest : List Char)
    (hds : ∀ c ∈ ds, isDigitB c = true)
    (hrest : ∀ c, rest.head? = some c → isDigitB c = false) :
    ∀ acc k, takeDigitsAux (ds ++ rest) acc k =
      (ds.foldl (fun a c => 10 * a + digitVal c) acc, k + ds.length, rest) := by
  induction ds with
  | nil =>
    intro acc k
    cases rest with
    | nil => simp [takeDigitsAux]
    | cons c cs =>
      have hc := hrest c rfl
      simp [takeDigitsAux, hc]
  | cons d ds ih =>
    intro acc k
    have hd := hds d (by simp)
    simp only [List.cons_append, takeDigitsAux, hd, if_pos, List.foldl_cons,
      List.length_cons]
    rw [List.append_eq, ih (fun c hc => hds c (by simp [hc]))]
    refine congrArg _ ?_
    refine congrArg (fun x => (x, rest)) ?_
    omega

theorem pyFloat_digits (ds : List Char) (hne : ds ≠ [])
    (hds : ∀ c ∈ ds, isDigitB c = true) :
    pyFloat ds = some ((digitsToNat ds : Nat) : ℚ) := by
  cases ds with
  | nil => exact absurd rfl hne
  | cons c cs =>
    have hrun := takeDigitsAux_append (c :: cs) [] hds (by simp) 0 0
    rw [List.append_nil] at hrun
    unfold pyFloat
    rw [splitSign_of_digit cs (hds c (by simp))]
    simp only [hrun]
    rw [if_neg (by simp)]
    rfl

theorem pyFloat_fixed (a b1 b2 : Nat) (hb1 : b1 < 10) (hb2 : b2 < 10) :
    pyFloat (renderNat a ++ '.' :: [digitChar b1, digitChar b2]) =
      some ((a : ℚ) + (((10 * b1 + b2 : Nat)) : ℚ) / 100) := by
  have hdigs := renderNat_digits a
  have hrun := takeDigitsAux_append (renderNat a) ('.' :: [digitChar b1, digitChar b2])
    hdigs (by intro c hc; simp at hc; rw [← hc]; rfl) 0 0
  have hfrac := takeDigitsAux_append [digitChar b1, digitChar b2] []
    (by
      intro c hc
      simp at hc
      rcases hc with hc | hc <;> rw [hc] <;> exact digitChar_isDigit _) (by simp) 0 0
  rw [List.append_nil] at hfrac
  obtain ⟨c, cs, hcons⟩ : ∃ c cs, renderNat a = c :: cs := by
    cases hr : renderNat a with
    | nil => exact absurd hr (renderNat_ne_nil a)
    | cons c cs => exact ⟨c, cs, rfl⟩
  have hc : isDigitB c = true := hdigs c (by rw [hcons]; simp)
  unfold pyFloat
  rw [hcons, List.cons_append, splitSign_of_digit _ hc, ← List.cons_append, ← hcons]
  simp only [hrun, hfrac]
  rw [if_neg]
  · rw [if_pos (by simp)]
    have hval : (renderNat a).foldl (fun x c => 10 * x + digitVal c) 0 = a :=
      renderNat_val a
    have hfval : [digitChar b1, digitChar b2].foldl (fun x c => 10 * x + digitVal c) 0 =
        10 * b1 + b2 := by
      simp only [List.foldl_cons, List.foldl_nil, Nat.mul_zero, Nat.zero_add,
        digitChar_val hb1, digitChar_val hb2]
    simp only [hval, hfval]
    norm_num
  · simp only [Bool.and_eq_true, decide_eq_true_eq, not_and]
    intro h0
    simp

theorem digit_not_multiplier {c : Char} (h : isDigitB c = true) :
    isMultiplier c = false := by
  cases hm : isMultiplier c with
  | false => rfl
  | true =>
    have : c = 'k' ∨ c = 'm' ∨ c = 'b' := by
      simpa [isMultiplier, or_assoc] using hm
    rcases this with e | e | e <;> exact absurd (e ▸ h) (by decide)

theorem clean_id (l : List Char)
    (h : ∀ x ∈ l, isDigitB x = true ∨ x = '.' ∨ isMultiplier x = true) :
    cleanPrice ⟨l⟩ = l := by
  unfold cleanPrice
  induction l with
  | nil => rfl
  | cons x xs ih =>
    have hx := h x (by simp)
    have hxs := ih (fun y hy => h y (by simp [hy]))
    have hmult : ∀ y : Char, isMultiplier y = true → y = 'k' ∨ y = 'm' ∨ y = 'b' := by
      intro y hy
      simpa [isMultiplier, or_assoc] using hy
    have hcomma : x ≠ ',' := by
      rcases hx with hd | he | hm
      · exact fun e => absurd (e ▸ hd) (by decide)
      · rw [he]; decide
      · exact fun e => absurd (e ▸ hm) (by decide)
    have hspace : x ≠ ' ' := by
      rcases hx with hd | he | hm
      · exact fun e => absurd (e ▸ hd) (by decide)
      · rw [he]; decide
      · exact fun e => absurd (e ▸ hm) (by decide)
    have hlower : lowerChar x = x := by
      rcases hx with hd | he | hm
      · exact lowerChar_of_digit hd
      · rw [he]; rfl
      · rcases hmult x hm with e | e | e <;> rw [e] <;> rfl
    rw [List.filter_cons_of_pos (by simp [hcomma]),
      List.filter_cons_of_pos (by simp [hspace]), List.map_cons, hlower, hxs]

theorem pyCommaGroup_small (p : Int) (h0 : 0 ≤ p) (hlt : p.natAbs < 1000) :
    pyCommaGroup p = renderNat p.natAbs := by
  unfold pyCommaGroup
  rw [if_neg (by omega)]
  have hlen : (renderNat p.natAbs).length ≤ 3 := by
    have := renderNat_length_le (k := 2) (n := p.natAbs) (by omega)
    omega
  obtain ⟨m, hm⟩ : ∃ m, (renderNat p.natAbs).length = m + 1 := by
    cases hr : renderNat p.natAbs with
    | nil => exact absurd hr (renderNat_ne_nil p.natAbs)
    | cons c cs => exact ⟨cs.length, rfl⟩
  show [] ++ (groupRevAux (renderNat p.natAbs).length (renderNat p.natAbs).reverse).reverse =
    renderNat p.natAbs
  rw [hm]
  unfold groupRevAux
  rw [if_pos (by rw [List.length_reverse]; omega)]
  simp

theorem parse_price_render (v : Nat) :
    parse_price ⟨renderNat v⟩ = .ok ((v : Nat) : ℚ) := by
  have hdigs := renderNat_digits v
  have hne := renderNat_ne_nil v
  have hclean := clean_id (renderNat v) (fun x hx => Or.inl (hdigs x hx))
  have hlast0 := List.getLast?_eq_getLast (renderNat v) hne
  have hlast : isDigitB ((renderNat v).getLast hne) = true :=
    hdigs _ (List.getLast_mem hne)
  have hmul := digit_not_multiplier hlast
  have hfloat := pyFloat_digits _ hne hdigs
  have hemp : (renderNat v).isEmpty = false := by
    cases hr : renderNat v with
    | nil => exact absurd hr hne
    | cons a l => rfl
  simp only [parse_price, hclean, hlast0, hmul, hfloat, renderNat_val, hemp,
    Bool.false_eq_true, if_false]

theorem parse_price_fmt_suffix (q : ℚ) (hq : 1 ≤ q) (c : Char) (hc : isMultiplier c = true) :
    parse_price ⟨fmtFixed2 q ++ [c]⟩ =
      .ok (((round (q * 100) : Int) : ℚ) / 100 * priceMultiplier c) := by
  have hn : (0 : Int) ≤ round (q * 100) := by
    rw [round_eq, Int.le_floor]
    push_cast
    nlinarith
  have hfmt : fmtFixed2 q = renderNat ((round (q * 100)).natAbs / 100) ++
      '.' :: [digitChar ((round (q * 100)).natAbs / 10 % 10),
              digitChar ((round (q * 100)).natAbs % 10)] := by
    unfold fmtFixed2
    rw [if_neg (by omega)]
  set mag := (round (q * 100)).natAbs with hmagdef
  have hchars : ∀ x ∈ (renderNat (mag / 100) ++
      '.' :: [digitChar (mag / 10 % 10), digitChar (mag % 10)]) ++ [c],
      isDigitB x = true ∨ x = '.' ∨ isMultiplier x = true := by
    intro x hx
    rcases List.mem_append.mp hx with hx | hx
    · rcases List.mem_append.mp hx with hx | hx
      · exact Or.inl (renderNat_digits _ x hx)
      · simp at hx
        rcases hx with hx | hx | hx
        · exact Or.inr (Or.inl hx)
        · rw [hx]; exact Or.inl (digitChar_isDigit _)
        · rw [hx]; exact Or.inl (digitChar_isDigit _)
    · simp at hx
      rw [hx]
      exact Or.inr (Or.inr hc)
  have hclean := clean_id _ hchars
  have hemp : ((renderNat (mag / 100) ++
      '.' :: [digitChar (mag / 10 % 10), digitChar (mag % 10)]) ++ [c]).isEmpty = false := by
    cases hb : (renderNat (mag / 100) ++
        '.' :: [digitChar (mag / 10 % 10), digitChar (mag % 10)]) ++ [c] with
    | nil => exact absurd hb (by simp)
    | cons a l => rfl
  have hlast0 : ((renderNat (mag / 100) ++
      '.' :: [digitChar (mag / 10 % 10), digitChar (mag % 10)]) ++ [c]).getLast? = some c :=
    List.getLast?_concat _
  have hdrop : ((renderNat (mag / 100) ++
      '.' :: [digitChar (mag / 10 % 10), digitChar (mag % 10)]) ++ [c]).dropLast =
      renderNat (mag / 100) ++ '.' :: [digitChar (mag / 10 % 10), digitChar (mag % 10)] :=
    List.dropLast_concat
  have hfloat := pyFloat_fixed (mag / 100) (mag / 10 % 10) (mag % 10)
    (Nat.mod_lt _ (by omega)) (Nat.mod_lt _ (by omega))
  have hval : (((mag / 100 : Nat)) : ℚ) +
      (((10 * (mag / 10 % 10) + mag % 10 : Nat)) : ℚ) / 100 =
      ((round (q * 100) : Int) : ℚ) / 100 := by
    have h1 : (10 * (mag / 10 % 10) + mag % 10) = mag % 100 := by omega
    have h2 : ((mag : Nat) : ℚ) = ((round (q * 100) : Int) : ℚ) := by
      rw [hmagdef, Int.cast_natAbs, abs_of_nonneg (by exact_mod_cast hn)]
    have h3 : (100 : ℚ) * ((mag / 100 : Nat) : ℚ) + ((mag % 100 : Nat) : ℚ) =
        ((mag : Nat) : ℚ) := by
      exact_mod_cast congrArg (fun z : Nat => (z : ℚ)) (Nat.div_add_mod mag 100)
    rw [h1, ← h2]
    field_simp
    linarith
  rw [hfmt]
  simp only [parse_price, hclean, hemp, Bool.false_eq_true, if_false, hlast0, hc,
    eq_self_iff_true, if_true, hdrop, hfloat, hval]

theorem parse_fmt_bound (v : Nat) (c : Char) (hc : isMultiplier c = true)
    (hv : priceMultiplier c ≤ (v : ℚ)) :
    ∃ q : ℚ, parse_price ⟨fmtFixed2 ((v : ℚ) / priceMultiplier c) ++ [c]⟩ = .ok q ∧
      |q - (v : ℚ)| ≤ priceMultiplier c / 200 := by
  have hMpos : (0 : ℚ) < priceMultiplier c := by
    unfold priceMultiplier
    split
    · norm_num
    · split <;> norm_num
  have hq1 : 1 ≤ (v : ℚ) / priceMultiplier c := by
    rw [le_div_iff₀ hMpos]
    linarith
  refine ⟨_, parse_price_fmt_suffix _ hq1 c hc, ?_⟩
  have key : ((round ((v : ℚ) / priceMultiplier c * 100) : Int) : ℚ) / 100 *
      priceMultiplier c - (v : ℚ) =
      priceMultiplier c / 100 *
        (((round ((v : ℚ) / priceMultiplier c * 100) : Int) : ℚ) -
          (v : ℚ) / priceMultiplier c * 100) := by
    field_simp
    ring
  rw [key, abs_mul, abs_of_pos (by positivity : (0 : ℚ) < priceMultiplier c / 100)]
  have habs : |((round ((v : ℚ) / priceMultiplier c * 100) : Int) : ℚ) -
      (v : ℚ) / priceMultiplier c * 100| ≤ 1 / 2 := by
    have h := abs_sub_round ((v : ℚ) / priceMultiplier c * 100)
    rwa [abs_sub_comm] at h
  calc priceMultiplier c / 100 * |((round ((v : ℚ) / priceMultiplier c * 100) : Int) : ℚ) -
      (v : ℚ) / priceMultiplier c * 100| ≤ priceMultiplier c / 100 * (1 / 2) :=
        mul_le_mul_of_nonneg_left habs (by positivity)
  _ = priceMultiplier c / 200 := by ring

/-- Claim C8: for every non-negative integer v below 10^12, parsing the
formatted magnitude string differs from v by no more than the rounding error
of the 2-decimal truncation (half of the last rendered decimal: 5 at the k
scale, 5000 at m, 5000000 at b), and below 1000 the round-trip is exact. -/
theorem format_parse_roundtrip (v : Nat) (hv : v < 10 ^ 12) :
    ∃ q : ℚ, parse_price (format_price (some (v : Int))) = .ok q ∧
      (v < 1000 → q = (v : ℚ)) ∧
      |q - (v : ℚ)| ≤ (if v < 1000 then 0 else if v < 10 ^ 6 then 5
        else if v < 10 ^ 9 then 5000 else 5000000) := by
  by_cases h1 : v < 1000
  · have hfmt : format_price (some (v : Int)) = ⟨pyCommaGroup (v : Int)⟩ := by
      simp only [format_price]
      rw [if_neg (by omega), if_neg (by omega), if_neg (by omega)]
    rw [hfmt, pyCommaGroup_small _ (by omega) (by simpa using h1), Int.natAbs_ofNat]
    refine ⟨(v : ℚ), parse_price_render v, fun _ => rfl, ?_⟩
    rw [if_pos h1]
    simp
  · by_cases h2 : v < 10 ^ 6
    · have hfmt : format_price (some (v : Int)) = ⟨fmtFixed2 (((v : Int) : ℚ) / 1000) ++ ['k']⟩ := by
        simp only [format_price]
        rw [if_neg (by omega), if_neg (by omega), if_pos (by omega)]
      obtain ⟨q, hpq, hb⟩ := parse_fmt_bound v 'k' rfl
        (by rw [show priceMultiplier 'k' = (1000 : ℚ) from rfl]; exact_mod_cast Nat.le_of_not_lt h1)
      rw [show priceMultiplier 'k' = (1000 : ℚ) from rfl] at hpq hb
      refine ⟨q, ?_, fun hlt => absurd hlt h1, ?_⟩
      · rw [hfmt, Int.cast_natCast]
        exact hpq
      · rw [if_neg h1, if_pos h2]
        linarith [hb]
    · by_cases h3 : v < 10 ^ 9
      · have hfmt : format_price (some (v : Int)) =
            ⟨fmtFixed2 (((v : Int) : ℚ) / 1000000) ++ ['m']⟩ := by
          simp only [format_price]
          rw [if_neg (by omega), if_pos (by omega)]
        obtain ⟨q, hpq, hb⟩ := parse_fmt_bound v 'm' rfl
          (by rw [show priceMultiplier 'm' = (1000000 : ℚ) from rfl]; exact_mod_cast Nat.le_of_not_lt h2)
        rw [show priceMultiplier 'm' = (1000000 : ℚ) from rfl] at hpq hb
        refine ⟨q, ?_, fun hlt => absurd hlt h1, ?_⟩
        · rw [hfmt, Int.cast_natCast]
          exact hpq
        · rw [if_neg h1, if_neg h2, if_pos h3]
          linarith [hb]
      · have hfmt : format_price (some (v : Int)) =
            ⟨fmtFixed2 (((v : Int) : ℚ) / 1000000000) ++ ['b']⟩ := by
          simp only [format_price]
          rw [if_pos (by omega)]
        obtain ⟨q, hpq, hb⟩ := parse_fmt_bound v 'b' rfl
          (by rw [show priceMultiplier 'b' = (1000000000 : ℚ) from rfl]; exact_mod_cast Nat.le_of_not_lt h3)
        rw [show priceMultiplier 'b' = (1000000000 : ℚ) from rfl] at hpq hb
        refine ⟨q, ?_, fun hlt => absurd hlt h1, ?_⟩
        · rw [hfmt, Int.cast_natCast]
          exact hpq
        · rw [if_neg h1, if_neg h2, if_neg h3]
          linarith [hb]

/-- Claim C8 witness: the theorem at v = 2340000 (formatted as "2.34m"). -/
theorem format_parse_roundtrip_witness :
    ∃ q : ℚ, parse_price (format_price (some ((2340000 : Nat) : Int))) = .ok q ∧
      ((2340000 : Nat) < 1000 → q = ((2340000 : Nat) : ℚ)) ∧
      |q - ((2340000 : Nat) : ℚ)| ≤ (if (2340000 : Nat) < 1000 then 0
        else if (2340000 : Nat) < 10 ^ 6 then 5
        else if (2340000 : Nat) < 10 ^ 9 then 5000 else 5000000) :=
  format_parse_roundtrip 2340000 (by norm_num)
